import Mathlib

/-!
Verification of the list sorting scalar function (`list_sort.cpp`).

The source walks one list column, emits one key/payload row per list element
(key = (row counter stored as uint16, element value), payload = running
uint32 element counter), sinks those rows into an external sort facility
configured with a two-level order, drains the sorted payloads into a
selection vector, and re-slices the shared child vector in place; the result
vector always ends up referencing the input list vector.

Vectors are modelled flat (i.e. after `Orrify` with an identity selection):
list entries are (offset, length) windows into a flat child storage whose
elements are `Option Int` (`none` is a NULL element).  Machine integers are
modelled as `Nat` with explicit reduction modulo 2^16 (`uint16_t` group
index store) and 2^32 (`uint32_t` payload counter).

The external sort engine (`GlobalSortState`, `PayloadScanner`) is not part
of the source of this file; where a claim needs its behaviour, the comparator and
scan contract are modelled from the spec and clearly marked as such.
-/

namespace ListSort

/-- Modulus of a `uint16_t` store. -/
def u16Mod : Nat := 65536

/-- Modulus of a `uint32_t` counter. -/
def u32Mod : Nat := 4294967296

/-- One list entry: an (offset, length) window into the flat child storage
(`list_entry_t` in the source). -/
structure ListEntry where
  offset : Nat
  length : Nat
  deriving DecidableEq

/-- One key/payload row sunk into the sort engine: the stored group index
(the row counter written through a `uint16_t` pointer), the element value
(`none` = NULL element), and the stored payload (the running `uint32_t`
element counter `incr_payload_count`). -/
structure Triple where
  group : Nat
  value : Option Int
  payload : Nat
  deriving DecidableEq

/-- The input of one `ListSortFunction` invocation: one row per list, each a
validity bit plus a list entry, the flat child storage, and whether the
column type is the untyped-null marker `SQLNULL`. -/
structure InputLists where
  rows : List (Bool × ListEntry)
  child : List (Option Int)
  isSqlNull : Bool

/-- Triples emitted for one row (the body of the row loop, `list_sort.cpp`
lines 153-185): an invalid (NULL) row emits nothing, a zero-length list
emits nothing, and otherwise element `j` of the window yields a triple with
group `i % 2^16` (line 180 stores the row counter through a `uint16_t`
pointer), the child element at `offset + j` (line 178, identity selection),
and payload `(pc + j) % 2^32` (line 181, the running `uint32_t` counter). -/
def emitRow (i : Nat) (valid : Bool) (e : ListEntry) (child : List (Option Int)) (pc : Nat) :
    List Triple :=
  if valid = false then []
  else if e.length = 0 then []
  else (List.range e.length).map fun j =>
    { group := i % u16Mod, value := child.getD (e.offset + j) none, payload := (pc + j) % u32Mod }

/-- All triples sunk into the sort engine, rows processed in order with the
row counter starting at `i` and the payload counter at `pc`.  Buffer
boundaries (`SinkDataChunk` every `STANDARD_VECTOR_SIZE` elements) only
chunk this sequence; the multiset of sunk rows is exactly this list. -/
def buildFrom : List (Bool × ListEntry) → List (Option Int) → Nat → Nat → List Triple
  | [], _, _, _ => []
  | r :: rs, child, i, pc =>
    emitRow i r.1 r.2 child pc ++
      buildFrom rs child (i + 1) (pc + (emitRow i r.1 r.2 child pc).length)

/-- All triples sunk for one invocation (row counter and payload counter
start at 0). -/
def buildTriples (inp : InputLists) : List Triple :=
  buildFrom inp.rows inp.child 0 0

/-- Number of elements a row contributes to the sort. -/
def rowLen (r : Bool × ListEntry) : Nat :=
  if r.1 && r.2.length != 0 then r.2.length else 0

/-- Value of the payload counter when row `k` starts being processed: the
total number of elements the rows before it emitted. -/
def emittedBefore : List (Bool × ListEntry) → Nat → Nat
  | _, 0 => 0
  | [], _ + 1 => 0
  | r :: rs, k + 1 => rowLen r + emittedBefore rs k

/-- The triples row `k` contributes to the sort. -/
def contribAt (inp : InputLists) (k : Nat) : List Triple :=
  emitRow k (inp.rows.getD k (false, ⟨0, 0⟩)).1 (inp.rows.getD k (false, ⟨0, 0⟩)).2 inp.child
    (emittedBefore inp.rows k)

/-- The rebuilt flat child storage: `child_vector.Slice(sel_sorted, n)`
followed by `Normalify(n)` (lines 225-226) makes position `p` of the child
hold the original element at index `sel_sorted[p]`, and `sel_sorted` holds
the scanned payloads in emission order. -/
def gather (child : List (Option Int)) (scanned : List Triple) : List (Option Int) :=
  scanned.map fun t => child.getD t.payload none

/-- Observable result of one `ListSortFunction` invocation. -/
structure SortOutput where
  isSqlNullOut : Bool
  validity : List Bool
  entries : List ListEntry
  child : List (Option Int)
  referencesInput : Bool
  engineUsed : Bool

/-- One `ListSortFunction` invocation (lines 98-230), parameterised by the
sequence `scanned` of triples the external scanner yields (ties are broken
arbitrarily by the engine, so the scan order is a parameter; a real run
provides a sorted permutation of the sunk triples).
`SQLNULL` column: set row 0 invalid on the fresh flat result and return
(lines 107-110) — the engine is never created.  Otherwise the result
references the input list vector (line 229), so its validity and entries are
physically those of the input (the `SetInvalid` writes of the loop are superseded by
the reference, and the referenced validity already has exactly the NULL rows
of the input); if nothing was sunk (`data_to_sort == false`, lines 149-151 and
192) the child storage is untouched, else it is re-sliced by the scanned
payloads. -/
def listSortFunction (inp : InputLists) (scanned : List Triple) : SortOutput :=
  if inp.isSqlNull then
    { isSqlNullOut := true
      validity := (List.range inp.rows.length).map fun k => k != 0
      entries := []
      child := inp.child
      referencesInput := false
      engineUsed := false }
  else if buildTriples inp = [] then
    { isSqlNullOut := false
      validity := inp.rows.map Prod.fst
      entries := inp.rows.map Prod.snd
      child := inp.child
      referencesInput := true
      engineUsed := false }
  else
    { isSqlNullOut := false
      validity := inp.rows.map Prod.fst
      entries := inp.rows.map Prod.snd
      child := gather inp.child scanned
      referencesInput := true
      engineUsed := true }

/-- Final value of the `uint32_t` counter `incr_payload_count` after the
row loop: one increment per emitted element, wrapping modulo 2^32. -/
def finalPayloadCount (inp : InputLists) : Nat :=
  (buildTriples inp).length % u32Mod

/-- Emitting one row contributes `rowLen` triples. -/
lemma emitRow_length (i : Nat) (v : Bool) (e : ListEntry) (child : List (Option Int)) (pc : Nat) :
    (emitRow i v e child pc).length = rowLen (v, e) := by
  unfold emitRow rowLen
  cases v <;> cases Nat.decEq e.length 0 <;> simp_all

/-- A batch of valid one-element lists (all windowed at child position 0)
emits one triple per row, with the stored group running `i, i+1, ...`
reduced modulo 2^16 and the stored payload running `pc, pc+1, ...` reduced
modulo 2^32. -/
lemma buildFrom_replicate_single (child : List (Option Int)) :
    ∀ n i pc : Nat,
      buildFrom (List.replicate n (true, ⟨0, 1⟩)) child i pc =
        (List.range n).map fun k =>
          ⟨(i + k) % u16Mod, child.getD 0 none, (pc + k) % u32Mod⟩
  | 0, _, _ => rfl
  | n + 1, i, pc => by
    have hrow : emitRow i true ⟨0, 1⟩ child pc =
        [⟨i % u16Mod, child.getD 0 none, pc % u32Mod⟩] := rfl
    rw [List.replicate_succ]
    simp only [buildFrom, hrow, List.length_cons, List.length_nil, Nat.zero_add,
      List.singleton_append]
    rw [buildFrom_replicate_single child n (i + 1) (pc + 1)]
    rw [List.range_succ_eq_map, List.map_cons, List.map_map]
    refine List.cons_eq_cons.mpr ⟨rfl, ?_⟩
    refine List.map_congr_left fun k _ => ?_
    have h1 : i + 1 + k = i + Nat.succ k := by omega
    have h2 : pc + 1 + k = pc + Nat.succ k := by omega
    simp [Function.comp, h1, h2]

/-- A batch with 65537 valid one-element lists: more rows than a `uint16_t`
group index can distinguish. -/
def c1Input : InputLists := ⟨List.replicate 65537 (true, ⟨0, 1⟩), [some 7], false⟩

/-- Written from the words of the spec, not from the source, for comparison with
`buildTriples`: "PayloadRow = the absolute position of the element in
FlatChildStorage" — for each valid, non-empty row, in original order, the
absolute child positions `offset + j` of its elements. -/
def specPayloads (rows : List (Bool × ListEntry)) : List Nat :=
  (rows.map fun r =>
    if r.1 && r.2.length != 0 then (List.range r.2.length).map (r.2.offset + ·) else []).flatten

/-- A batch with one valid one-element list whose window starts at child
position 1 (such a vector arises e.g. from slicing a larger list column). -/
def c2Input : InputLists := ⟨[(true, ⟨1, 1⟩)], [some 10, some 20], false⟩

/-- The payloads the source emits are exactly `(pc + j) % 2^32` for the
running emission index, independent of the list windows. -/
lemma buildFrom_map_payload :
    ∀ (rows : List (Bool × ListEntry)) (child : List (Option Int)) (i pc : Nat),
      (buildFrom rows child i pc).map Triple.payload =
        (List.range (buildFrom rows child i pc).length).map fun j => (pc + j) % u32Mod
  | [], _, _, _ => rfl
  | r :: rs, child, i, pc => by
    simp only [buildFrom, List.map_append, List.length_append]
    rw [buildFrom_map_payload rs child (i + 1) (pc + (emitRow i r.1 r.2 child pc).length)]
    rw [List.range_add, List.map_append, List.map_map]
    refine congrArg₂ _ ?_ ?_
    · unfold emitRow
      split
      · rfl
      split
      · rfl
      · simp only [List.map_map, List.length_map, List.length_range]
        rfl
    · refine List.map_congr_left fun j _ => ?_
      simp only [Function.comp_apply]
      have h3 : pc + (emitRow i r.1 r.2 child pc).length + j =
          pc + ((emitRow i r.1 r.2 child pc).length + j) := by omega
      rw [h3]

/-- `OrderType` of the source (`duckdb/common/enums/order_type.hpp`). -/
inductive OrderType
  | invalid
  | orderDefault
  | ascending
  | descending
  deriving DecidableEq

/-- `OrderByNullType` of the source. -/
inductive OrderByNullType
  | invalid
  | orderDefault
  | nullsFirst
  | nullsLast
  deriving DecidableEq

/-- One `BoundOrderByNode`: order direction, null order, and the referenced
key-chunk column (0 = the `USMALLINT` group index, 1 = the element value). -/
structure BoundOrderByNode where
  otype : OrderType
  nullOrder : OrderByNullType
  colIndex : Nat
  deriving DecidableEq

/-- The `orders` vector built by the `ListSortBindData` constructor (lines
53-57): primary node = column 0 (group index), `ASCENDING`,
`ORDER_DEFAULT`; secondary node = column 1 (element value) with the
requested order and null order. -/
def bindDataOrders (ot : OrderType) (no : OrderByNullType) : List BoundOrderByNode :=
  [⟨OrderType.ascending, OrderByNullType.orderDefault, 0⟩, ⟨ot, no, 1⟩]

/-- Three-way natural comparison on `Nat`. -/
def natCmp (x y : Nat) : Ordering :=
  if x < y then Ordering.lt else if y < x then Ordering.gt else Ordering.eq

/-- Three-way natural comparison on `Int`. -/
def intCmp (x y : Int) : Ordering :=
  if x < y then Ordering.lt else if y < x then Ordering.gt else Ordering.eq

/-- Modelled from the spec: the comparison, by the external Sort Engine, of one
element-value column — requested direction reverses the value order, the
null-placement policy puts a NULL element before (NULLS FIRST) or after
(NULLS LAST) every non-null value irrespective of direction, and two NULLs
tie. -/
def valueCmp (ot : OrderType) (no : OrderByNullType) (a b : Option Int) : Ordering :=
  match a, b with
  | none, none => Ordering.eq
  | none, some _ => if no = OrderByNullType.nullsLast then Ordering.gt else Ordering.lt
  | some _, none => if no = OrderByNullType.nullsLast then Ordering.lt else Ordering.gt
  | some x, some y => if ot = OrderType.descending then intCmp y x else intCmp x y

/-- Modelled from the spec: evaluating one `BoundOrderByNode` on two sunk
key rows; column 0 holds the group index (a `USMALLINT`, never NULL),
column 1 the element value. -/
def nodeCmp (node : BoundOrderByNode) (A B : Triple) : Ordering :=
  if node.colIndex = 0 then
    if node.otype = OrderType.descending then natCmp B.group A.group
    else natCmp A.group B.group
  else valueCmp node.otype node.nullOrder A.value B.value

/-- Modelled from the spec: the lexicographic strict
comparator over a list of order nodes. -/
def ordersLT (orders : List BoundOrderByNode) (A B : Triple) : Bool :=
  match orders with
  | [] => false
  | n :: rest =>
    match nodeCmp n A B with
    | Ordering.lt => true
    | Ordering.gt => false
    | Ordering.eq => ordersLT rest A B

/-- One bound argument expression at binding time: whether it is foldable
(a compile-time constant) and, if evaluated, the text of its value
(`Value::ToString()`), modelled as a byte/char sequence. -/
structure BindArg where
  foldable : Bool
  value : List Char

/-- The `std::transform(..., ::toupper)` of the source, on char sequences. -/
def upChars (s : List Char) : List Char := s.map Char.toUpper

/-- `GetNullOrder` (lines 249-265): reject a non-constant argument, upper-case
the text, reject anything but NULLS FIRST / NULLS LAST, and map the token to
the null-order enum. -/
def getNullOrder (arg : BindArg) : Except (List Char) OrderByNullType :=
  if arg.foldable = false then Except.error "Null sorting order must be a constant".toList
  else if upChars arg.value ≠ "NULLS FIRST".toList ∧ upChars arg.value ≠ "NULLS LAST".toList then
    Except.error "Null sorting order must be either NULLS FIRST or NULLS LAST".toList
  else if upChars arg.value = "NULLS LAST".toList then Except.ok OrderByNullType.nullsLast
  else Except.ok OrderByNullType.nullsFirst

/-- The order-argument validation of `ListNormalSortBind` (lines 281-294):
reject a non-constant argument, upper-case the text, reject anything but
ASC / DESC, and map the token to the order enum. -/
def parseOrderArg (arg : BindArg) : Except (List Char) OrderType :=
  if arg.foldable = false then Except.error "Sorting order must be a constant".toList
  else if upChars arg.value ≠ "DESC".toList ∧ upChars arg.value ≠ "ASC".toList then
    Except.error "Sorting order must be either ASC or DESC".toList
  else if upChars arg.value = "DESC".toList then Except.ok OrderType.descending
  else Except.ok OrderType.ascending

/-- The process-wide configured defaults (`DBConfig::GetConfig`). -/
structure DBConfig where
  default_order_type : OrderType
  default_null_order : OrderByNullType

/-- `ListNormalSortBind` (lines 267-303), reduced to the (order, null order)
pair it passes on to `ListSortBind`; `extraArgs` are the arguments after the
list itself (the source allows 0, 1 or 2 of them).  Defaults come from the
configuration; a provided order argument is validated first, then a provided
null-order argument. -/
def listNormalSortBind (config : DBConfig) (extraArgs : List BindArg) :
    Except (List Char) (OrderType × OrderByNullType) :=
  match extraArgs[0]? with
  | none => Except.ok (config.default_order_type, config.default_null_order)
  | some a =>
    match parseOrderArg a with
    | Except.error e => Except.error e
    | Except.ok ord =>
      match extraArgs[1]? with
      | none => Except.ok (ord, config.default_null_order)
      | some b =>
        match getNullOrder b with
        | Except.error e => Except.error e
        | Except.ok no => Except.ok (ord, no)

/-- The order inversion of `ListReverseSortBind` (line 313): an ascending
default becomes descending, anything else becomes ascending. -/
def reverseOrder (o : OrderType) : OrderType :=
  if o = OrderType.ascending then OrderType.descending else OrderType.ascending

/-- `ListReverseSortBind` (lines 305-322): order is the inverted default;
the null order is the default unless a (validated) null-order argument is
provided. -/
def listReverseSortBind (config : DBConfig) (extraArgs : List BindArg) :
    Except (List Char) (OrderType × OrderByNullType) :=
  match extraArgs[0]? with
  | none => Except.ok (reverseOrder config.default_order_type, config.default_null_order)
  | some a =>
    match getNullOrder a with
    | Except.error e => Except.error e
    | Except.ok no => Except.ok (reverseOrder config.default_order_type, no)

/-- Whether a binding step raised an error. -/
def isErr {α : Type} : Except (List Char) α → Bool
  | Except.error _ => true
  | Except.ok _ => false

/-- The reject condition of the claim for the order argument. -/
def badOrderToken (a : BindArg) : Prop :=
  a.foldable = false ∨
    (upChars a.value ≠ "ASC".toList ∧ upChars a.value ≠ "DESC".toList)

/-- The reject condition of the claim for the null-order argument. -/
def badNullOrderToken (a : BindArg) : Prop :=
  a.foldable = false ∨
    (upChars a.value ≠ "NULLS FIRST".toList ∧ upChars a.value ≠ "NULLS LAST".toList)

/-- A batch with one null row, one empty row and one two-element row. -/
def c4Input : InputLists :=
  ⟨[(false, ⟨0, 0⟩), (true, ⟨0, 0⟩), (true, ⟨0, 2⟩)], [some 5, some 3], false⟩

/-- A batch in which every row is null or empty. -/
def c5Input : InputLists := ⟨[(false, ⟨0, 1⟩), (true, ⟨0, 0⟩)], [some 3], false⟩

/-- A batch over a column whose type is the untyped-null marker. -/
def c6Input : InputLists := ⟨[(true, ⟨0, 1⟩)], [some 1], true⟩

/-- A batch with one valid two-element list. -/
def c9Input : InputLists := ⟨[(true, ⟨0, 2⟩)], [some 2, some 1], false⟩

end ListSort

namespace ListSort

/-- The sunk triples decompose as the concatenation, in row order, of the
per-row contributions. -/
lemma buildFrom_eq_flatten :
    ∀ (rows : List (Bool × ListEntry)) (child : List (Option Int)) (i pc : Nat),
      buildFrom rows child i pc =
        ((List.range rows.length).map fun k =>
          emitRow (i + k) (rows.getD k (false, ⟨0, 0⟩)).1 (rows.getD k (false, ⟨0, 0⟩)).2 child
            (pc + emittedBefore rows k)).flatten
  | [], _, _, _ => rfl
  | r :: rs, child, i, pc => by
    rw [List.length_cons, List.range_succ_eq_map, List.map_cons, List.map_map,
      List.flatten_cons]
    simp only [buildFrom]
    refine congrArg₂ (· ++ ·) rfl ?_
    rw [buildFrom_eq_flatten rs child (i + 1) (pc + (emitRow i r.1 r.2 child pc).length)]
    refine congrArg _ (List.map_congr_left fun k _ => ?_)
    simp only [Function.comp_apply]
    rw [emitRow_length]
    have e1 : i + 1 + k = i + (k + 1) := by omega
    have e2 : pc + rowLen (r.1, r.2) + emittedBefore rs k =
        pc + (rowLen (r.1, r.2) + emittedBefore rs k) := by omega
    rw [e1, e2]
    rfl

/-- A batch in which every row is null or empty emits nothing. -/
lemma buildFrom_eq_nil :
    ∀ (rows : List (Bool × ListEntry)) (child : List (Option Int)) (i pc : Nat),
      (∀ r ∈ rows, r.1 = false ∨ r.2.length = 0) → buildFrom rows child i pc = []
  | [], _, _, _, _ => rfl
  | r :: rs, child, i, pc, h => by
    have hr := h r (List.mem_cons_self r rs)
    have hrow : emitRow i r.1 r.2 child pc = [] := by
      unfold emitRow
      rcases hr with h1 | h1 <;> simp [h1]
    simp only [buildFrom, hrow, List.nil_append, List.length_nil, Nat.add_zero]
    exact buildFrom_eq_nil rs child (i + 1) pc fun x hx => h x (List.mem_cons_of_mem r hx)

/-- For a non-`SQLNULL` column the validity of the result is physically that
of the input list vector (`result.Reference(lists)`, line 229). -/
lemma listSort_validity_eq (inp : InputLists) (scanned : List Triple)
    (hns : inp.isSqlNull = false) :
    (listSortFunction inp scanned).validity = inp.rows.map Prod.fst := by
  unfold listSortFunction
  rw [hns, if_neg (by decide : ¬ (false = true))]
  split <;> rfl

/-- For a non-`SQLNULL` column the list entries of the result are physically
those of the input list vector. -/
lemma listSort_entries_eq (inp : InputLists) (scanned : List Triple)
    (hns : inp.isSqlNull = false) :
    (listSortFunction inp scanned).entries = inp.rows.map Prod.snd := by
  unfold listSortFunction
  rw [hns, if_neg (by decide : ¬ (false = true))]
  split <;> rfl

/-- C2 counterexample: one valid, non-empty list row whose single element
sits at absolute child position 1.  The source emits that element with
PayloadRow 0 (the running count of emitted elements, line 181), while the
spec wording demands its absolute position 1 in the flat child storage. -/
theorem c2_payload_not_absolute_position :
    (c2Input.rows.getD 0 (false, ⟨0, 0⟩)).1 = true ∧
    (c2Input.rows.getD 0 (false, ⟨0, 0⟩)).2.length ≠ 0 ∧
    (buildTriples c2Input).map Triple.payload = [0] ∧
    specPayloads c2Input.rows = [1] := by decide

/-- C2 amended: the Key Builder writes as PayloadRow the running count of
previously emitted elements (`incr_payload_count`), so over one invocation
the payloads are exactly `0, 1, 2, ...` in emission order (modulo the
`uint32_t` width, which is not reached below 2^32 emitted elements) — not
the absolute position of the element in the flat child storage. -/
theorem c2_payload_is_running_count (inp : InputLists)
    (h : (buildTriples inp).length < u32Mod) :
    (buildTriples inp).map Triple.payload = List.range (buildTriples inp).length := by
  have hm := buildFrom_map_payload inp.rows inp.child 0 0
  rw [show buildTriples inp = buildFrom inp.rows inp.child 0 0 from rfl] at h ⊢
  rw [hm]
  have : ∀ j ∈ List.range (buildFrom inp.rows inp.child 0 0).length,
      (0 + j) % u32Mod = j := by
    intro j hj
    rw [Nat.zero_add]
    exact Nat.mod_eq_of_lt (lt_of_lt_of_le (List.mem_range.mp hj) (Nat.le_of_lt h))
  rw [List.map_congr_left this]
  exact List.map_id _

/-- C2 amended, instantiated at the counterexample input. -/
theorem c2_payload_is_running_count_witness :
    (buildTriples c2Input).map Triple.payload = List.range (buildTriples c2Input).length :=
  c2_payload_is_running_count c2Input (by decide)

/-- C4: the sunk triples are the concatenation of the per-row
contributions; a null row contributes nothing and its output row is invalid
(the result references the input vector, whose validity already marks it);
an empty row contributes nothing and passes through as a valid row with its
entry unchanged.  So no data for a null or empty row ever enters the sort
engine. -/
theorem c4_null_and_empty_rows (inp : InputLists) (scanned : List Triple) (i : Nat)
    (hns : inp.isSqlNull = false) (hi : i < inp.rows.length) :
    buildTriples inp = ((List.range inp.rows.length).map fun k => contribAt inp k).flatten ∧
    ((inp.rows.getD i (false, ⟨0, 0⟩)).1 = false →
      (listSortFunction inp scanned).validity.getD i true = false ∧
      contribAt inp i = []) ∧
    ((inp.rows.getD i (false, ⟨0, 0⟩)).1 = true →
      (inp.rows.getD i (false, ⟨0, 0⟩)).2.length = 0 →
      (listSortFunction inp scanned).validity.getD i false = true ∧
      (listSortFunction inp scanned).entries.getD i ⟨0, 0⟩ =
        (inp.rows.getD i (false, ⟨0, 0⟩)).2 ∧
      contribAt inp i = []) := by
  have hv : (listSortFunction inp scanned).validity = inp.rows.map Prod.fst :=
    listSort_validity_eq inp scanned hns
  have he : (listSortFunction inp scanned).entries = inp.rows.map Prod.snd :=
    listSort_entries_eq inp scanned hns
  have hiv : i < (inp.rows.map Prod.fst).length := by simpa using hi
  have hie : i < (inp.rows.map Prod.snd).length := by simpa using hi
  refine ⟨?_, fun hf => ⟨?_, ?_⟩, fun ht hlen => ⟨?_, ?_, ?_⟩⟩
  · rw [show buildTriples inp = buildFrom inp.rows inp.child 0 0 from rfl,
      buildFrom_eq_flatten]
    refine congrArg _ (List.map_congr_left fun k _ => ?_)
    unfold contribAt
    rw [Nat.zero_add, Nat.zero_add]
  · rw [hv, List.getD_eq_getElem _ _ hiv, List.getElem_map,
      ← List.getD_eq_getElem inp.rows (false, ⟨0, 0⟩) hi, hf]
  · unfold contribAt
    rw [hf]
    rfl
  · rw [hv, List.getD_eq_getElem _ _ hiv, List.getElem_map,
      ← List.getD_eq_getElem inp.rows (false, ⟨0, 0⟩) hi, ht]
  · rw [he, List.getD_eq_getElem _ _ hie, List.getElem_map,
      ← List.getD_eq_getElem inp.rows (false, ⟨0, 0⟩) hi]
  · unfold contribAt emitRow
    rw [ht, hlen]
    simp

/-- C4 instantiated: on `c4Input`, the null row 0 yields an invalid output
row and contributes no triples. -/
theorem c4_null_and_empty_rows_witness :
    (listSortFunction c4Input (buildTriples c4Input)).validity.getD 0 true = false ∧
    contribAt c4Input 0 = [] :=
  (c4_null_and_empty_rows c4Input (buildTriples c4Input) 0 rfl (by decide)).2.1 rfl

/-- C5: if every row of a non-`SQLNULL` batch is null or empty, nothing is
sunk, the sort engine and the gather are skipped (`data_to_sort` stays
false), the child storage is untouched, and the output is the input vector
(validity and entries referenced unchanged). -/
theorem c5_degenerate_batch_skips_engine (inp : InputLists) (scanned : List Triple)
    (hns : inp.isSqlNull = false)
    (h : ∀ r ∈ inp.rows, r.1 = false ∨ r.2.length = 0) :
    buildTriples inp = [] ∧
    (listSortFunction inp scanned).engineUsed = false ∧
    (listSortFunction inp scanned).child = inp.child ∧
    (listSortFunction inp scanned).referencesInput = true ∧
    (listSortFunction inp scanned).validity = inp.rows.map Prod.fst ∧
    (listSortFunction inp scanned).entries = inp.rows.map Prod.snd := by
  have h0 : buildTriples inp = [] := buildFrom_eq_nil inp.rows inp.child 0 0 h
  refine ⟨h0, ?_, ?_, ?_, listSort_validity_eq inp scanned hns,
    listSort_entries_eq inp scanned hns⟩ <;>
    simp [listSortFunction, hns, h0]

/-- C5 instantiated at a batch of one null and one empty row. -/
theorem c5_degenerate_batch_skips_engine_witness :
    buildTriples c5Input = [] ∧
    (listSortFunction c5Input []).engineUsed = false ∧
    (listSortFunction c5Input []).child = c5Input.child ∧
    (listSortFunction c5Input []).referencesInput = true ∧
    (listSortFunction c5Input []).validity = c5Input.rows.map Prod.fst ∧
    (listSortFunction c5Input []).entries = c5Input.rows.map Prod.snd :=
  c5_degenerate_batch_skips_engine c5Input [] rfl (by decide)

/-- C6: a column whose type is the untyped-null marker short-circuits for
every batch size: the result is the untyped-null result (row 0 marked
invalid on the fresh flat vector, lines 107-110) and the sort engine is
never created or invoked. -/
theorem c6_sqlnull_short_circuit (inp : InputLists) (scanned : List Triple)
    (h : inp.isSqlNull = true) :
    (listSortFunction inp scanned).isSqlNullOut = true ∧
    (listSortFunction inp scanned).engineUsed = false ∧
    (listSortFunction inp scanned).child = inp.child ∧
    (listSortFunction inp scanned).validity =
      (List.range inp.rows.length).map fun k => k != 0 := by
  simp [listSortFunction, h]

/-- C6 instantiated at a one-row `SQLNULL` batch. -/
theorem c6_sqlnull_short_circuit_witness :
    (listSortFunction c6Input []).isSqlNullOut = true ∧
    (listSortFunction c6Input []).engineUsed = false ∧
    (listSortFunction c6Input []).child = c6Input.child ∧
    (listSortFunction c6Input []).validity =
      (List.range c6Input.rows.length).map fun k => k != 0 :=
  c6_sqlnull_short_circuit c6Input [] rfl

/-- C9: for any scan order that emits every sunk triple exactly once (the
`Scan()` contract of the spec, modelled as a permutation of the sunk triples),
draining appends one payload per scanned triple, the resulting permutation
vector has exactly as many entries as triples were sunk — so the assertion
`sel_sorted_idx == incr_payload_count` (line 224) holds whenever fewer than
2^32 elements were emitted — and the subsequent gather produces exactly one
child position per sorted element. -/
theorem c9_scan_drain_complete (inp : InputLists) (scanned : List Triple)
    (hperm : scanned.Perm (buildTriples inp))
    (hlt : (buildTriples inp).length < u32Mod) :
    (scanned.map Triple.payload).length = (buildTriples inp).length ∧
    (scanned.map Triple.payload).length = finalPayloadCount inp ∧
    (gather inp.child scanned).length = (scanned.map Triple.payload).length := by
  have h1 : scanned.length = (buildTriples inp).length := hperm.length_eq
  refine ⟨by simp [h1], ?_, by simp [gather]⟩
  simp [finalPayloadCount, h1, Nat.mod_eq_of_lt hlt]

/-- C9 instantiated at a two-element batch scanned in sunk order. -/
theorem c9_scan_drain_complete_witness :
    ((buildTriples c9Input).map Triple.payload).length = (buildTriples c9Input).length ∧
    ((buildTriples c9Input).map Triple.payload).length = finalPayloadCount c9Input ∧
    (gather c9Input.child (buildTriples c9Input)).length =
      ((buildTriples c9Input).map Triple.payload).length :=
  c9_scan_drain_complete c9Input (buildTriples c9Input) (List.Perm.refl _) (by decide)

/-- C10: for every non-`SQLNULL` batch the returned vector references the
input lists vector itself (line 229): its per-row entries and validity are
physically those of the input, and the only data change is the in-place
re-slice/flatten of the shared child vector (either untouched when nothing
was sunk, or the gather by scanned payloads); no new list-entry storage is
produced. -/
theorem c10_result_references_input (inp : InputLists) (scanned : List Triple)
    (hns : inp.isSqlNull = false) :
    (listSortFunction inp scanned).referencesInput = true ∧
    (listSortFunction inp scanned).validity = inp.rows.map Prod.fst ∧
    (listSortFunction inp scanned).entries = inp.rows.map Prod.snd ∧
    ((listSortFunction inp scanned).child = inp.child ∨
      (listSortFunction inp scanned).child = gather inp.child scanned) := by
  refine ⟨?_, listSort_validity_eq inp scanned hns, listSort_entries_eq inp scanned hns, ?_⟩
  · unfold listSortFunction
    rw [hns, if_neg (by decide : ¬ (false = true))]
    split <;> rfl
  · unfold listSortFunction
    rw [hns, if_neg (by decide : ¬ (false = true))]
    split
    · exact Or.inl rfl
    · exact Or.inr rfl

/-- C10 instantiated at a two-element batch scanned in sunk order. -/
theorem c10_result_references_input_witness :
    (listSortFunction c9Input (buildTriples c9Input)).referencesInput = true ∧
    (listSortFunction c9Input (buildTriples c9Input)).validity =
      c9Input.rows.map Prod.fst ∧
    (listSortFunction c9Input (buildTriples c9Input)).entries =
      c9Input.rows.map Prod.snd ∧
    ((listSortFunction c9Input (buildTriples c9Input)).child = c9Input.child ∨
      (listSortFunction c9Input (buildTriples c9Input)).child =
        gather c9Input.child (buildTriples c9Input)) :=
  c10_result_references_input c9Input (buildTriples c9Input) rfl

/-- C3: the configured order is exactly two-level — the constructor always
builds primary = (group index column, ascending) regardless of the
requested order, and secondary = (value column, requested order and null
order) — and consequently under the lexicographic comparator of the engine a
sunk triple with a smaller group index precedes any triple with a larger
one, and never the other way round, independent of the element values. -/
theorem c3_two_level_order (ot : OrderType) (no : OrderByNullType) (A B : Triple)
    (h : A.group < B.group) :
    bindDataOrders ot no =
      [⟨OrderType.ascending, OrderByNullType.orderDefault, 0⟩, ⟨ot, no, 1⟩] ∧
    ordersLT (bindDataOrders ot no) A B = true ∧
    ordersLT (bindDataOrders ot no) B A = false := by
  have hne : ¬ B.group < A.group := Nat.lt_asymm h
  refine ⟨rfl, ?_, ?_⟩
  · simp [ordersLT, bindDataOrders, nodeCmp, natCmp, h]
  · simp [ordersLT, bindDataOrders, nodeCmp, natCmp, h, hne]

/-- C3 instantiated with a descending request and element values ordered
against the group order: the smaller group still precedes. -/
theorem c3_two_level_order_witness :
    bindDataOrders OrderType.descending OrderByNullType.nullsLast =
      [⟨OrderType.ascending, OrderByNullType.orderDefault, 0⟩,
        ⟨OrderType.descending, OrderByNullType.nullsLast, 1⟩] ∧
    ordersLT (bindDataOrders OrderType.descending OrderByNullType.nullsLast)
      ⟨0, some 3, 0⟩ ⟨1, some 9, 1⟩ = true ∧
    ordersLT (bindDataOrders OrderType.descending OrderByNullType.nullsLast)
      ⟨1, some 9, 1⟩ ⟨0, some 3, 0⟩ = false :=
  c3_two_level_order OrderType.descending OrderByNullType.nullsLast
    ⟨0, some 3, 0⟩ ⟨1, some 9, 1⟩ (by decide)

/-- The order argument errors exactly when it is not a constant or its
upper-cased text is neither ASC nor DESC. -/
lemma isErr_parseOrderArg (a : BindArg) :
    isErr (parseOrderArg a) = true ↔ badOrderToken a := by
  unfold parseOrderArg badOrderToken
  by_cases h1 : a.foldable = false <;>
    by_cases h2 : upChars a.value = ['D', 'E', 'S', 'C'] <;>
      by_cases h3 : upChars a.value = ['A', 'S', 'C'] <;>
        simp [h1, h2, h3, isErr]

/-- The null-order argument errors exactly when it is not a constant or its
upper-cased text is neither NULLS FIRST nor NULLS LAST. -/
lemma isErr_getNullOrder (a : BindArg) :
    isErr (getNullOrder a) = true ↔ badNullOrderToken a := by
  unfold getNullOrder badNullOrderToken
  by_cases h1 : a.foldable = false <;>
    by_cases h2 : upChars a.value = ['N', 'U', 'L', 'L', 'S', ' ', 'F', 'I', 'R', 'S', 'T'] <;>
      by_cases h3 : upChars a.value = ['N', 'U', 'L', 'L', 'S', ' ', 'L', 'A', 'S', 'T'] <;>
        simp [h1, h2, h3, isErr]

/-- C7: binding raises an invalid-input error if and only if a provided
order argument is non-constant or (case-insensitively) not ASC/DESC, or a
provided null-order argument is non-constant or (case-insensitively) not
NULLS FIRST/NULLS LAST; in particular every case variant of the accepted
tokens binds successfully. -/
theorem c7_binding_error_iff (config : DBConfig) (extraArgs : List BindArg) :
    isErr (listNormalSortBind config extraArgs) = true ↔
      ((∃ a, extraArgs[0]? = some a ∧ badOrderToken a) ∨
        (∃ b, extraArgs[1]? = some b ∧ badNullOrderToken b)) := by
  match extraArgs with
  | [] => simp [listNormalSortBind, isErr]
  | [a] =>
    cases hp : parseOrderArg a with
    | error e =>
      have hbad : badOrderToken a := (isErr_parseOrderArg a).mp (by rw [hp]; rfl)
      simp [listNormalSortBind, hp, isErr, hbad]
    | ok o =>
      have hgood : ¬ badOrderToken a := fun hb => by
        have hc := (isErr_parseOrderArg a).mpr hb
        rw [hp] at hc
        exact Bool.noConfusion hc
      simp [listNormalSortBind, hp, isErr, hgood]
  | a :: b :: t =>
    cases hp : parseOrderArg a with
    | error e =>
      have hbad : badOrderToken a := (isErr_parseOrderArg a).mp (by rw [hp]; rfl)
      simp [listNormalSortBind, hp, isErr, hbad]
    | ok o =>
      have hgood : ¬ badOrderToken a := fun hb => by
        have hc := (isErr_parseOrderArg a).mpr hb
        rw [hp] at hc
        exact Bool.noConfusion hc
      cases hn : getNullOrder b with
      | error e =>
        have hbadn : badNullOrderToken b := (isErr_getNullOrder b).mp (by rw [hn]; rfl)
        simp [listNormalSortBind, hp, hn, isErr, hgood, hbadn]
      | ok no =>
        have hgoodn : ¬ badNullOrderToken b := fun hb => by
          have hc := (isErr_getNullOrder b).mpr hb
          rw [hn] at hc
          exact Bool.noConfusion hc
        simp [listNormalSortBind, hp, hn, isErr, hgood, hgoodn]

/-- C7 instantiated: a non-constant order argument errors, by the iff. -/
theorem c7_binding_error_iff_witness :
    isErr (listNormalSortBind ⟨OrderType.ascending, OrderByNullType.nullsFirst⟩
      [⟨false, "ASC".toList⟩]) = true :=
  (c7_binding_error_iff ⟨OrderType.ascending, OrderByNullType.nullsFirst⟩
      [⟨false, "ASC".toList⟩]).mpr
    (Or.inl ⟨⟨false, "ASC".toList⟩, rfl, Or.inl rfl⟩)

/-- C8: with no extra arguments, `sort` binds the configured default order
and default null order; `reverse_sort` binds the inverse of the default
order (ascending default becomes descending and descending becomes
ascending) and keeps the default null order; if `reverse_sort` gets a valid
null-order argument, the policy of that argument is used instead, with the order
still the inverted default. -/
theorem c8_default_and_reverse_binding (config : DBConfig) (a : BindArg)
    (no : OrderByNullType) (hno : getNullOrder a = Except.ok no) :
    listNormalSortBind config [] =
      Except.ok (config.default_order_type, config.default_null_order) ∧
    listReverseSortBind config [] =
      Except.ok (reverseOrder config.default_order_type, config.default_null_order) ∧
    reverseOrder OrderType.ascending = OrderType.descending ∧
    reverseOrder OrderType.descending = OrderType.ascending ∧
    listReverseSortBind config [a] =
      Except.ok (reverseOrder config.default_order_type, no) := by
  refine ⟨rfl, rfl, rfl, rfl, ?_⟩
  simp [listReverseSortBind, hno]

/-- C8 instantiated: a lower-case `nulls last` argument overrides the
default null order of `reverse_sort`. -/
theorem c8_default_and_reverse_binding_witness :
    listNormalSortBind ⟨OrderType.ascending, OrderByNullType.nullsFirst⟩ [] =
      Except.ok (OrderType.ascending, OrderByNullType.nullsFirst) ∧
    listReverseSortBind ⟨OrderType.ascending, OrderByNullType.nullsFirst⟩ [] =
      Except.ok (reverseOrder OrderType.ascending, OrderByNullType.nullsFirst) ∧
    reverseOrder OrderType.ascending = OrderType.descending ∧
    reverseOrder OrderType.descending = OrderType.ascending ∧
    listReverseSortBind ⟨OrderType.ascending, OrderByNullType.nullsFirst⟩
        [⟨true, "nulls last".toList⟩] =
      Except.ok (reverseOrder OrderType.ascending, OrderByNullType.nullsLast) :=
  c8_default_and_reverse_binding ⟨OrderType.ascending, OrderByNullType.nullsFirst⟩
    ⟨true, "nulls last".toList⟩ OrderByNullType.nullsLast rfl

/-- C1: on a batch of 65537 non-null, non-empty lists, the element of row
65536 is sunk with stored group index 0 — the group index of row 0 — because
line 180 stores the row counter through a `uint16_t` pointer; no capacity
error is raised anywhere on this path (the execution function has no error
exit at all).  So the narrowing silently changes group assignment instead of
reporting a capacity error, contradicting the claim. -/
theorem c1_silent_group_truncation :
    c1Input.rows.length = 65537 ∧
    (∀ r ∈ c1Input.rows, r.1 = true ∧ r.2.length ≠ 0) ∧
    (buildTriples c1Input)[0]? = some ⟨0, some 7, 0⟩ ∧
    (buildTriples c1Input)[65536]? = some ⟨0, some 7, 65536⟩ := by
  have hb : buildTriples c1Input =
      (List.range 65537).map fun k =>
        (⟨(0 + k) % u16Mod, (([some 7] : List (Option Int))).getD 0 none,
          (0 + k) % u32Mod⟩ : Triple) :=
    buildFrom_replicate_single [some 7] 65537 0 0
  refine ⟨?_, ?_, ?_, ?_⟩
  · show (List.replicate 65537 ((true : Bool), (⟨0, 1⟩ : ListEntry))).length = 65537
    exact List.length_replicate _ _
  · intro r hr
    have hre : r = (true, ⟨0, 1⟩) := List.eq_of_mem_replicate hr
    rw [hre]
    exact ⟨rfl, by decide⟩
  · rw [hb, List.getElem?_map, List.getElem?_range (by norm_num)]
    decide
  · rw [hb, List.getElem?_map, List.getElem?_range (by norm_num)]
    decide

end ListSort
